import Mathlib

/-!
Verification of the NgeBaju backend order lifecycle and stock adjustment
logic, shallowly embedded from `src/controllers/orderController.js`,
`src/controllers/cartController.js` and the validation rules of
`src/routes/orderRoutes.js` / cart routes.

Database rows are modelled as structures, tables as lists of rows, and each
Express handler as a pure function from a `DB` (plus its request inputs) to a
response together with the resulting `DB`.  `.single()` queries are modelled by
`singleMatch`, which succeeds exactly when one row matches (PostgREST's
`PGRST116` error covers both zero and multiple rows).  Stock counters are
`Int`, so an update that would drive a counter negative is representable.
-/

namespace NgeBaju

/-- Row of the `products` table (`product_id, name, price, stock`). -/
structure Product where
  product_id : Nat
  name : String
  price : Int
  stock : Int
  deriving Repr, DecidableEq

/-- Row of the `product_sizes` table (`product_id, size, stock`). -/
structure ProductSize where
  product_id : Nat
  size : String
  stock : Int
  deriving Repr, DecidableEq

/-- The eight order statuses of `orderRoutes.js`'s `statusValidation`. -/
inductive OrderStatus where
  | pending
  | processing
  | shipped
  | delivered
  | completed
  | cancelled
  | returned
  | refunded
  deriving Repr, DecidableEq

/-- Row of the `orders` table. -/
structure Order where
  order_id : Nat
  user_id : Nat
  total_price : Int
  status : OrderStatus
  deriving Repr, DecidableEq

/-- Row of the `order_items` table. -/
structure OrderItem where
  order_id : Nat
  product_id : Nat
  size : Option String
  quantity : Int
  price : Int
  deriving Repr, DecidableEq

/-- Row of the `cart_items` table. -/
structure CartItem where
  item_id : Nat
  user_id : Nat
  product_id : Nat
  size : Option String
  quantity : Int
  deriving Repr, DecidableEq

/-- The persistent state reachable from the handlers under verification. -/
structure DB where
  products : List Product
  product_sizes : List ProductSize
  orders : List Order
  order_items : List OrderItem
  cart_items : List CartItem
  next_order_id : Nat
  next_item_id : Nat
  deriving Repr, DecidableEq

/-- One line item of a `POST /orders` request body.  `price` is a
client-supplied field that `createOrder` never reads. -/
structure ReqItem where
  product_id : Nat
  size : Option String
  quantity : Int
  price : Option Int
  deriving Repr, DecidableEq

/-- The error outcomes of the embedded handlers, one constructor per
distinct error return in the source. -/
inductive OrderError where
  | ValidationError
  | ProductNotFound (product_id : Nat)
  | SizeNotFound (product_id : Nat) (size : String)
  | InsufficientStock (product_id : Nat)
  | InvalidTransition (src tgt : OrderStatus)
  | NotFound
  | Forbidden
  | InternalError
  deriving Repr, DecidableEq

/-- The HTTP status code each error is returned with in the source
(`res.status(...)` at the corresponding return site). -/
def OrderError.httpStatus : OrderError → Nat
  | .ValidationError => 400
  | .ProductNotFound _ => 400
  | .SizeNotFound _ _ => 400
  | .InsufficientStock _ => 400
  | .InvalidTransition _ _ => 400
  | .NotFound => 404
  | .Forbidden => 403
  | .InternalError => 500

/-- `.single()`: succeeds exactly when one row matches the filter. -/
def singleMatch {α : Type} (p : α → Bool) (l : List α) : Option α :=
  match l.filter p with
  | [a] => some a
  | _ => none

/-- `supabase.from('products')...eq('product_id', pid).single()`. -/
def singleProduct (db : DB) (pid : Nat) : Option Product :=
  singleMatch (fun p => p.product_id == pid) db.products

/-- `supabase.from('product_sizes')...eq('product_id', pid).eq('size', sz).single()`. -/
def singleSize (db : DB) (pid : Nat) (sz : String) : Option ProductSize :=
  singleMatch (fun s => s.product_id == pid && s.size == sz) db.product_sizes

/-- `supabase.from('orders')...eq('order_id', oid).single()`. -/
def singleOrder (db : DB) (oid : Nat) : Option Order :=
  singleMatch (fun o => o.order_id == oid) db.orders

/-! ## Stock adjustment logic -/

/-- A line item as the stock-adjustment loops see it: the
`product_id, size, quantity` columns. -/
structure StockItem where
  product_id : Nat
  size : Option String
  quantity : Int
  deriving Repr, DecidableEq

/-- `UPDATE products SET stock = stock + d WHERE product_id = pid`. -/
def adjustProducts (pid : Nat) (d : Int) (ps : List Product) : List Product :=
  ps.map (fun p => if p.product_id == pid then { p with stock := p.stock + d } else p)

/-- `UPDATE product_sizes SET stock = stock + d WHERE product_id = pid AND size = sz`. -/
def adjustSizes (pid : Nat) (sz : String) (d : Int) (ss : List ProductSize) :
    List ProductSize :=
  ss.map (fun s =>
    if s.product_id == pid && s.size == sz then { s with stock := s.stock + d } else s)

/-- One iteration of the stock-update loops: the per-size row when a size is
present, otherwise the product's general stock row, adjusted by `d`. -/
def adjustStock (db : DB) (it : StockItem) (d : Int) : DB :=
  match it.size with
  | some sz => { db with product_sizes := adjustSizes it.product_id sz d db.product_sizes }
  | none => { db with products := adjustProducts it.product_id d db.products }

/-- The decrement loop at the end of `createOrder` (`rpc('decrement')` per item). -/
def reserveStocks (db : DB) (items : List StockItem) : DB :=
  items.foldl (fun db it => adjustStock db it (-it.quantity)) db

/-- The restore loop at the end of `cancelOrder` (`rpc('increment')` per item). -/
def releaseStocks (db : DB) (items : List StockItem) : DB :=
  items.foldl (fun db it => adjustStock db it it.quantity) db

/-! ## Order assembly (`createOrder`) -/

/-- A verified line item as pushed onto `verifiedItems` in `createOrder`:
the request's product, size and quantity plus the product's current price. -/
structure VerifiedItem where
  product_id : Nat
  size : Option String
  quantity : Int
  price : Int
  deriving Repr, DecidableEq

def VerifiedItem.toStockItem (v : VerifiedItem) : StockItem :=
  { product_id := v.product_id, size := v.size, quantity := v.quantity }

/-- The verification loop of `createOrder`: for each item look up the product
(`ProductNotFound` on failure), then the size row when a size is given
(`SizeNotFound` on failure), check stock (`InsufficientStock`), and accumulate
the verified items and the running total `price * quantity`. -/
def verifyItems (db : DB) : List ReqItem → Except OrderError (List VerifiedItem × Int)
  | [] => .ok ([], 0)
  | item :: rest =>
    match singleProduct db item.product_id with
    | none => .error (.ProductNotFound item.product_id)
    | some product =>
      match item.size with
      | some sz =>
        match singleSize db item.product_id sz with
        | none => .error (.SizeNotFound item.product_id sz)
        | some sizeData =>
          if sizeData.stock < item.quantity then
            .error (.InsufficientStock item.product_id)
          else
            match verifyItems db rest with
            | .error e => .error e
            | .ok (vs, total) =>
              .ok (⟨item.product_id, some sz, item.quantity, product.price⟩ :: vs,
                product.price * item.quantity + total)
      | none =>
        if product.stock < item.quantity then
          .error (.InsufficientStock item.product_id)
        else
          match verifyItems db rest with
          | .error e => .error e
          | .ok (vs, total) =>
            .ok (⟨item.product_id, none, item.quantity, product.price⟩ :: vs,
              product.price * item.quantity + total)

/-- The `orderValidation` rules of `orderRoutes.js`: at least one item, and
every quantity an integer of at least 1 (`isArray({min: 1})`,
`isInt({min: 1})`). -/
def validOrderRequest (items : List ReqItem) : Bool :=
  !items.isEmpty && items.all (fun it => 1 ≤ it.quantity)

/-- `createOrder`: validate, verify all items against current stock, insert
the order header (status `pending`, computed total), insert one order item per
verified line, then run the stock decrement loop.  On any error the state is
returned unchanged (all mutations happen after the last error return). -/
def createOrder (db : DB) (userId : Nat) (items : List ReqItem) :
    Except OrderError (Nat × Int) × DB :=
  if !validOrderRequest items then
    (.error .ValidationError, db)
  else
    match verifyItems db items with
    | .error e => (.error e, db)
    | .ok (verified, totalPrice) =>
      let oid := db.next_order_id
      let db1 := { db with
        orders := db.orders ++
          [({ order_id := oid, user_id := userId, total_price := totalPrice,
              status := .pending } : Order)],
        next_order_id := oid + 1 }
      let db2 := { db1 with
        order_items := db1.order_items ++ verified.map (fun v =>
          ({ order_id := oid, product_id := v.product_id, size := v.size,
             quantity := v.quantity, price := v.price } : OrderItem)) }
      let db3 := reserveStocks db2 (verified.map VerifiedItem.toStockItem)
      (.ok (oid, totalPrice), db3)

/-! ## Order status state machine (`updateOrderStatus`) -/

/-- The `validStatusTransitions` table of `updateOrderStatus`. -/
def validStatusTransitions : OrderStatus → List OrderStatus
  | .pending => [.processing, .cancelled]
  | .processing => [.shipped, .cancelled]
  | .shipped => [.delivered, .returned]
  | .delivered => [.completed, .returned]
  | .returned => [.refunded]
  | .cancelled => []
  | .completed => []
  | .refunded => []

/-- `UPDATE orders SET status = st WHERE order_id = oid`. -/
def setOrderStatus (db : DB) (oid : Nat) (st : OrderStatus) : DB :=
  { db with orders := db.orders.map (fun o =>
      if o.order_id == oid then { o with status := st } else o) }

/-- `updateOrderStatus` (admin route `PUT /orders/:id/status`): 404 when the
order is not found, 400 when the transition table forbids the move, otherwise
persist the new status and return the updated order. -/
def updateOrderStatus (db : DB) (oid : Nat) (newStatus : OrderStatus) :
    Except OrderError Order × DB :=
  match singleOrder db oid with
  | none => (.error .NotFound, db)
  | some ord =>
    if (validStatusTransitions ord.status).contains newStatus then
      (.ok { ord with status := newStatus }, setOrderStatus db oid newStatus)
    else
      (.error (.InvalidTransition ord.status newStatus), db)

/-! ## Cancellation (`cancelOrder`) -/

/-- The `order_items` rows of order `oid`, projected to the columns the
restore loop selects (`product_id, size, quantity`). -/
def orderStockItems (db : DB) (oid : Nat) : List StockItem :=
  (db.order_items.filter (fun it => it.order_id == oid)).map
    (fun it =>
      ({ product_id := it.product_id, size := it.size, quantity := it.quantity } : StockItem))

/-- `cancelOrder` (`POST /orders/:id/cancel`): 404 when the order is not
found; 403 when the caller is neither admin nor the owner; 400 when the status
is neither `pending` nor `processing`; otherwise set the status to `cancelled`
and run the stock restore loop over the order's items. -/
def cancelOrder (db : DB) (userId : Nat) (role : String) (oid : Nat) :
    Except OrderError Order × DB :=
  match singleOrder db oid with
  | none => (.error .NotFound, db)
  | some ord =>
    if role != "admin" && ord.user_id != userId then
      (.error .Forbidden, db)
    else if ord.status != .pending && ord.status != .processing then
      (.error (.InvalidTransition ord.status .cancelled), db)
    else
      let db1 := setOrderStatus db oid .cancelled
      (.ok { ord with status := .cancelled }, releaseStocks db1 (orderStockItems db1 oid))

/-! ## Order retrieval (`getOrderById`) -/

/-- `getOrderById` (`GET /orders/:id`): the query is filtered by `order_id`,
and additionally scoped to the caller's own `user_id` when the caller is not
an admin; `.single()` failing (zero rows) is mapped to 404.  The handler does
not mutate the database. -/
def getOrderById (db : DB) (userId : Nat) (role : String) (oid : Nat) :
    Except OrderError Order :=
  let byId := db.orders.filter (fun o => o.order_id == oid)
  let visible := if role != "admin" then byId.filter (fun o => o.user_id == userId) else byId
  match visible with
  | [o] => .ok o
  | _ => .error .NotFound

/-! ## Cart operations (`cartController.js`)

These handlers read stock for availability checks but mutate only the
`cart_items` table. -/

/-- `.maybeSingle()`: `none` on zero rows, the row on one, an error
(mapped to HTTP 500 by the handler) on several. -/
def maybeSingle {α : Type} (p : α → Bool) (l : List α) : Except OrderError (Option α) :=
  match l.filter p with
  | [] => .ok none
  | [a] => .ok (some a)
  | _ => .error .InternalError

/-- The stock-availability check of `addToCart`: the size row (404 when
absent) when a size is given, otherwise the product's general stock. -/
def cartStockCheck (db : DB) (product : Product) (product_id : Nat) (quantity : Int)
    (size : Option String) : Except OrderError Unit :=
  match size with
  | some sz =>
    match singleSize db product_id sz with
    | none => .error .NotFound
    | some sizeData =>
      if sizeData.stock < quantity then .error (.InsufficientStock product_id)
      else .ok ()
  | none =>
    if product.stock < quantity then .error (.InsufficientStock product_id)
    else .ok ()

/-- The re-check of `addToCart` when merging into an existing cart row: like
`cartStockCheck` but with the merged quantity, and a missing size row now
surfaces as a thrown null-dereference (HTTP 500). -/
def cartRecheck (db : DB) (product : Product) (product_id : Nat) (newQuantity : Int)
    (size : Option String) : Except OrderError Unit :=
  match size with
  | some sz =>
    match singleSize db product_id sz with
    | none => .error .InternalError
    | some sizeData =>
      if sizeData.stock < newQuantity then .error (.InsufficientStock product_id)
      else .ok ()
  | none =>
    if product.stock < newQuantity then .error (.InsufficientStock product_id)
    else .ok ()

/-- `addToCart` (`POST /cart`): validate, check the product and (when given)
size exist and have enough stock, then either merge into an existing cart row
(re-checking stock against the merged quantity) or insert a new row. -/
def addToCart (db : DB) (userId : Nat) (product_id : Nat) (quantity : Int)
    (size : Option String) : Except OrderError CartItem × DB :=
  if !(1 ≤ product_id && 1 ≤ quantity) then
    (.error .ValidationError, db)
  else
    match singleProduct db product_id with
    | none => (.error .NotFound, db)
    | some product =>
      match cartStockCheck db product product_id quantity size with
      | .error e => (.error e, db)
      | .ok () =>
        match maybeSingle (fun c =>
            c.user_id == userId && c.product_id == product_id && c.size == size)
            db.cart_items with
        | .error e => (.error e, db)
        | .ok none =>
          (.ok ({ item_id := db.next_item_id, user_id := userId,
                  product_id := product_id, size := size,
                  quantity := quantity } : CartItem),
            { db with
              cart_items := db.cart_items ++
                [({ item_id := db.next_item_id, user_id := userId,
                    product_id := product_id, size := size,
                    quantity := quantity } : CartItem)],
              next_item_id := db.next_item_id + 1 })
        | .ok (some existingItem) =>
          match cartRecheck db product product_id
              (existingItem.quantity + quantity) size with
          | .error e => (.error e, db)
          | .ok () =>
            (.ok { existingItem with quantity := existingItem.quantity + quantity },
              { db with cart_items := db.cart_items.map (fun c =>
                  if c.item_id == existingItem.item_id then
                    { c with quantity := existingItem.quantity + quantity } else c) })

/-- The stock check of `updateCartItem` for the new quantity of an existing
cart row: the joined product row being absent surfaces as a thrown
null-dereference (HTTP 500). -/
def updateCartStockCheck (db : DB) (cartItem : CartItem) (quantity : Int) :
    Except OrderError Unit :=
  match cartItem.size with
  | some sz =>
    match singleSize db cartItem.product_id sz with
    | none => .error .NotFound
    | some sizeData =>
      if sizeData.stock < quantity then
        .error (.InsufficientStock cartItem.product_id)
      else .ok ()
  | none =>
    match singleProduct db cartItem.product_id with
    | none => .error .InternalError
    | some product =>
      if product.stock < quantity then
        .error (.InsufficientStock cartItem.product_id)
      else .ok ()

/-- `updateCartItem` (`PUT /cart/:id`): validate, look up the caller's cart
row, check stock for the new quantity, then update the row's quantity. -/
def updateCartItem (db : DB) (userId : Nat) (itemId : Nat) (quantity : Int) :
    Except OrderError CartItem × DB :=
  if !(1 ≤ quantity) then
    (.error .ValidationError, db)
  else
    match singleMatch (fun c => c.item_id == itemId && c.user_id == userId)
        db.cart_items with
    | none => (.error .NotFound, db)
    | some cartItem =>
      match updateCartStockCheck db cartItem quantity with
      | .error e => (.error e, db)
      | .ok () =>
        (.ok { cartItem with quantity := quantity },
          { db with cart_items := db.cart_items.map (fun c =>
              if c.item_id == itemId then { c with quantity := quantity } else c) })

/-- `removeFromCart` (`DELETE /cart/:id`): look up the caller's cart row,
then delete it. -/
def removeFromCart (db : DB) (userId : Nat) (itemId : Nat) :
    Except OrderError Unit × DB :=
  match singleMatch (fun c => c.item_id == itemId && c.user_id == userId)
      db.cart_items with
  | none => (.error .NotFound, db)
  | some _ =>
    (.ok (),
      { db with cart_items := db.cart_items.filter (fun c => !(c.item_id == itemId)) })

/-- `clearCart` (`DELETE /cart`): delete every cart row of the caller. -/
def clearCart (db : DB) (userId : Nat) : Except OrderError Unit × DB :=
  (.ok (), { db with cart_items := db.cart_items.filter (fun c => !(c.user_id == userId)) })

/-! ## The operations as state transformers -/

/-- One invocation of any of the state-mutating handlers under
verification, with its request inputs. -/
inductive Op where
  | create (userId : Nat) (items : List ReqItem)
  | cancel (userId : Nat) (role : String) (oid : Nat)
  | updStatus (oid : Nat) (st : OrderStatus)
  | cartAdd (userId : Nat) (product_id : Nat) (quantity : Int) (size : Option String)
  | cartUpdate (userId : Nat) (itemId : Nat) (quantity : Int)
  | cartRemove (userId : Nat) (itemId : Nat)
  | cartClear (userId : Nat)
  deriving Repr, DecidableEq

/-- The state reached after one handler invocation (the response dropped). -/
def applyOp (db : DB) : Op → DB
  | .create userId items => (createOrder db userId items).2
  | .cancel userId role oid => (cancelOrder db userId role oid).2
  | .updStatus oid st => (updateOrderStatus db oid st).2
  | .cartAdd userId pid qty size => (addToCart db userId pid qty size).2
  | .cartUpdate userId itemId qty => (updateCartItem db userId itemId qty).2
  | .cartRemove userId itemId => (removeFromCart db userId itemId).2
  | .cartClear userId => (clearCart db userId).2

/-! ## Algebra of stock adjustments -/

theorem adjustProducts_adjustProducts (pid : Nat) (d1 d2 : Int) (ps : List Product) :
    adjustProducts pid d1 (adjustProducts pid d2 ps) = adjustProducts pid (d2 + d1) ps := by
  induction ps with
  | nil => rfl
  | cons p t ih =>
    simp only [adjustProducts, List.map_cons] at ih ⊢
    rw [ih]
    congr 1
    by_cases h : p.product_id == pid <;> simp [h, add_assoc]

theorem adjustProducts_zero (pid : Nat) (ps : List Product) :
    adjustProducts pid 0 ps = ps := by
  induction ps with
  | nil => rfl
  | cons p t ih =>
    simp only [adjustProducts, List.map_cons] at ih ⊢
    rw [ih]
    congr 1
    by_cases h : p.product_id == pid <;> simp [h]

theorem adjustProducts_comm (pid1 pid2 : Nat) (d1 d2 : Int) (ps : List Product) :
    adjustProducts pid1 d1 (adjustProducts pid2 d2 ps)
      = adjustProducts pid2 d2 (adjustProducts pid1 d1 ps) := by
  induction ps with
  | nil => rfl
  | cons p t ih =>
    simp only [adjustProducts, List.map_cons] at ih ⊢
    rw [ih]
    congr 1
    by_cases h1 : p.product_id == pid1 <;> by_cases h2 : p.product_id == pid2 <;>
      simp [h1, h2, add_right_comm]

theorem adjustSizes_adjustSizes (pid : Nat) (sz : String) (d1 d2 : Int)
    (ss : List ProductSize) :
    adjustSizes pid sz d1 (adjustSizes pid sz d2 ss) = adjustSizes pid sz (d2 + d1) ss := by
  induction ss with
  | nil => rfl
  | cons s t ih =>
    simp only [adjustSizes, List.map_cons] at ih ⊢
    rw [ih]
    congr 1
    by_cases h : s.product_id == pid && s.size == sz <;> simp [h, add_assoc]

theorem adjustSizes_zero (pid : Nat) (sz : String) (ss : List ProductSize) :
    adjustSizes pid sz 0 ss = ss := by
  induction ss with
  | nil => rfl
  | cons s t ih =>
    simp only [adjustSizes, List.map_cons] at ih ⊢
    rw [ih]
    congr 1
    by_cases h : s.product_id == pid && s.size == sz <;> simp [h]

theorem adjustSizes_comm (pid1 pid2 : Nat) (sz1 sz2 : String) (d1 d2 : Int)
    (ss : List ProductSize) :
    adjustSizes pid1 sz1 d1 (adjustSizes pid2 sz2 d2 ss)
      = adjustSizes pid2 sz2 d2 (adjustSizes pid1 sz1 d1 ss) := by
  induction ss with
  | nil => rfl
  | cons s t ih =>
    simp only [adjustSizes, List.map_cons] at ih ⊢
    rw [ih]
    congr 1
    by_cases h1 : s.product_id == pid1 && s.size == sz1 <;>
      by_cases h2 : s.product_id == pid2 && s.size == sz2 <;>
      simp [h1, h2, add_right_comm]

theorem adjustStock_comm (db : DB) (it1 it2 : StockItem) (d1 d2 : Int) :
    adjustStock (adjustStock db it2 d2) it1 d1
      = adjustStock (adjustStock db it1 d1) it2 d2 := by
  cases h1 : it1.size <;> cases h2 : it2.size <;>
    simp [adjustStock, h1, h2, adjustProducts_comm, adjustSizes_comm]

theorem adjustStock_cancel (db : DB) (it : StockItem) (d : Int) :
    adjustStock (adjustStock db it d) it (-d) = db := by
  cases h : it.size <;>
    simp [adjustStock, h, adjustProducts_adjustProducts, adjustSizes_adjustSizes,
      adjustProducts_zero, adjustSizes_zero]

theorem adjustStock_reserveStocks (db : DB) (its : List StockItem) (it : StockItem)
    (d : Int) :
    adjustStock (reserveStocks db its) it d = reserveStocks (adjustStock db it d) its := by
  induction its generalizing db with
  | nil => rfl
  | cons j t ih =>
    simp only [reserveStocks, List.foldl_cons] at ih ⊢
    rw [ih, adjustStock_comm]

/-- Round trip: the cancellation-side increment loop undoes the
creation-side decrement loop when run with the identical items. -/
theorem releaseStocks_reserveStocks (db : DB) (items : List StockItem) :
    releaseStocks (reserveStocks db items) items = db := by
  induction items generalizing db with
  | nil => rfl
  | cons it t ih =>
    simp only [reserveStocks, releaseStocks, List.foldl_cons] at ih ⊢
    have h1 : adjustStock (t.foldl (fun db it => adjustStock db it (-it.quantity))
        (adjustStock db it (-it.quantity))) it it.quantity
        = t.foldl (fun db it => adjustStock db it (-it.quantity)) db := by
      have := adjustStock_reserveStocks (adjustStock db it (-it.quantity)) t it it.quantity
      simp only [reserveStocks] at this
      rw [this]
      have hc : adjustStock (adjustStock db it (-it.quantity)) it it.quantity = db := by
        have := adjustStock_cancel db it (-it.quantity)
        simpa using this
      rw [hc]
    rw [h1, ih]

/-! ## Pointwise description of the stock-update loops -/

/-- The net adjustment the loop applies to the general stock row of product
`pid`: the sum of `f it` over the sizeless items for that product. -/
def qtyAdjP (f : StockItem → Int) (its : List StockItem) (pid : Nat) : Int :=
  (its.map (fun it =>
    if it.size.isNone && pid == it.product_id then f it else 0)).sum

/-- The net adjustment the loop applies to the per-size stock row
`(pid, sz)`: the sum of `f it` over the items carrying that size. -/
def qtyAdjS (f : StockItem → Int) (its : List StockItem) (pid : Nat) (sz : String) : Int :=
  (its.map (fun it =>
    if it.size == some sz && pid == it.product_id then f it else 0)).sum

theorem foldAdjust_products (f : StockItem → Int) (its : List StockItem) (db : DB) :
    (its.foldl (fun db it => adjustStock db it (f it)) db).products
      = db.products.map (fun p =>
          { p with stock := p.stock + qtyAdjP f its p.product_id }) := by
  induction its generalizing db with
  | nil =>
    simp only [List.foldl_nil, qtyAdjP, List.map_nil, List.sum_nil]
    have hfun : (fun p : Product => ({ p with stock := p.stock + 0 } : Product))
        = fun p => p := funext fun p => by simp
    rw [hfun, List.map_id']
  | cons it t ih =>
    simp only [List.foldl_cons]
    rw [ih]
    cases hs : it.size with
    | some sz =>
      have hprod : (adjustStock db it (f it)).products = db.products := by
        simp [adjustStock, hs]
      rw [hprod]
      apply List.map_congr_left
      intro p _
      have : qtyAdjP f (it :: t) p.product_id = qtyAdjP f t p.product_id := by
        simp [qtyAdjP, hs]
      rw [this]
    | none =>
      have hprod : (adjustStock db it (f it)).products
          = adjustProducts it.product_id (f it) db.products := by
        simp [adjustStock, hs]
      rw [hprod, adjustProducts, List.map_map]
      apply List.map_congr_left
      intro p _
      by_cases hpp : p.product_id = it.product_id
      · simp [hpp, qtyAdjP, hs, add_assoc]
      · simp [Function.comp, hpp, qtyAdjP, hs, Ne.symm hpp]

theorem foldAdjust_product_sizes (f : StockItem → Int) (its : List StockItem) (db : DB) :
    (its.foldl (fun db it => adjustStock db it (f it)) db).product_sizes
      = db.product_sizes.map (fun s =>
          { s with stock := s.stock + qtyAdjS f its s.product_id s.size }) := by
  induction its generalizing db with
  | nil =>
    simp only [List.foldl_nil, qtyAdjS, List.map_nil, List.sum_nil]
    have hfun : (fun s : ProductSize => ({ s with stock := s.stock + 0 } : ProductSize))
        = fun s => s := funext fun s => by simp
    rw [hfun, List.map_id']
  | cons it t ih =>
    simp only [List.foldl_cons]
    rw [ih]
    cases hs : it.size with
    | none =>
      have hsz : (adjustStock db it (f it)).product_sizes = db.product_sizes := by
        simp [adjustStock, hs]
      rw [hsz]
      apply List.map_congr_left
      intro s _
      have : qtyAdjS f (it :: t) s.product_id s.size = qtyAdjS f t s.product_id s.size := by
        simp [qtyAdjS, hs]
      rw [this]
    | some sz =>
      have hsz : (adjustStock db it (f it)).product_sizes
          = adjustSizes it.product_id sz (f it) db.product_sizes := by
        simp [adjustStock, hs]
      rw [hsz, adjustSizes, List.map_map]
      apply List.map_congr_left
      intro s _
      by_cases h1 : s.product_id = it.product_id
      · by_cases h2 : s.size = sz
        · simp [Function.comp, h1, h2, qtyAdjS, hs, add_assoc]
        · simp [Function.comp, h1, h2, qtyAdjS, hs, Ne.symm h2]
      · by_cases h2 : s.size = sz
        · simp [Function.comp, h1, h2, qtyAdjS, hs, Ne.symm h1]
        · simp [Function.comp, h1, h2, qtyAdjS, hs, Ne.symm h1, Ne.symm h2]

theorem foldAdjust_rest (f : StockItem → Int) (its : List StockItem) (db : DB) :
    (its.foldl (fun db it => adjustStock db it (f it)) db).orders = db.orders ∧
    (its.foldl (fun db it => adjustStock db it (f it)) db).order_items = db.order_items ∧
    (its.foldl (fun db it => adjustStock db it (f it)) db).cart_items = db.cart_items ∧
    (its.foldl (fun db it => adjustStock db it (f it)) db).next_order_id
      = db.next_order_id ∧
    (its.foldl (fun db it => adjustStock db it (f it)) db).next_item_id
      = db.next_item_id := by
  induction its generalizing db with
  | nil => exact ⟨rfl, rfl, rfl, rfl, rfl⟩
  | cons it t ih =>
    simp only [List.foldl_cons]
    have h := ih (adjustStock db it (f it))
    cases hs : it.size <;>
      simp_all [adjustStock, hs]

/-- `reserveStocks` is the fold with per-item delta `-quantity`. -/
theorem reserveStocks_eq_fold (db : DB) (its : List StockItem) :
    reserveStocks db its
      = its.foldl (fun db it => adjustStock db it ((fun j => -j.quantity) it)) db := rfl

/-- `releaseStocks` is the fold with per-item delta `+quantity`. -/
theorem releaseStocks_eq_fold (db : DB) (its : List StockItem) :
    releaseStocks db its
      = its.foldl (fun db it => adjustStock db it ((fun j => j.quantity) it)) db := rfl

/-! ## Single-row queries and status updates -/

theorem singleMatch_eq_some {α : Type} (p : α → Bool) (l : List α) (a : α) :
    singleMatch p l = some a ↔ l.filter p = [a] := by
  unfold singleMatch
  cases h : l.filter p with
  | nil => simp
  | cons b t => cases t <;> simp_all

theorem singleMatch_pred {α : Type} {p : α → Bool} {l : List α} {a : α}
    (h : singleMatch p l = some a) : p a = true := by
  rw [singleMatch_eq_some] at h
  have : a ∈ l.filter p := by rw [h]; exact List.mem_singleton.mpr rfl
  exact (List.mem_filter.mp this).2

theorem filter_orders_setStatus (oid : Nat) (st : OrderStatus) (l : List Order) :
    (l.map (fun o => if o.order_id == oid then { o with status := st } else o)).filter
        (fun o => o.order_id == oid)
      = (l.filter (fun o => o.order_id == oid)).map
        (fun o => if o.order_id == oid then { o with status := st } else o) := by
  rw [List.filter_map]
  congr 1
  apply List.filter_congr
  intro o _
  by_cases h : o.order_id = oid <;> simp [h]

theorem singleOrder_pred {db : DB} {oid : Nat} {ord : Order}
    (h : singleOrder db oid = some ord) : (ord.order_id == oid) = true := by
  have h' : singleMatch (fun o => o.order_id == oid) db.orders = some ord := h
  exact singleMatch_pred (p := fun o => o.order_id == oid) (l := db.orders) (a := ord) h'

theorem singleOrder_setOrderStatus (db : DB) (oid : Nat) (ord : Order)
    (st : OrderStatus) (h : singleOrder db oid = some ord) :
    singleOrder (setOrderStatus db oid st) oid = some { ord with status := st } := by
  have hp : (ord.order_id == oid) = true := singleOrder_pred h
  have h' : db.orders.filter (fun o => o.order_id == oid) = [ord] :=
    (singleMatch_eq_some _ _ _).mp h
  have hgoal : (setOrderStatus db oid st).orders.filter (fun o => o.order_id == oid)
      = [{ ord with status := st }] := by
    show (db.orders.map _).filter _ = _
    rw [filter_orders_setStatus, h']
    simp only [List.map_cons, List.map_nil]
    rw [if_pos hp]
  exact (singleMatch_eq_some _ _ _).mpr hgoal

theorem setOrderStatus_products (db : DB) (oid : Nat) (st : OrderStatus) :
    (setOrderStatus db oid st).products = db.products := rfl

theorem setOrderStatus_order_items (db : DB) (oid : Nat) (st : OrderStatus) :
    (setOrderStatus db oid st).order_items = db.order_items := rfl

/-! ## Facts about the verification loop -/

/-- The stock value `createOrder`'s check reads for a request item: the
per-size row's stock when a size is given, otherwise the product's general
stock; `none` when the lookup fails. -/
def locatedStock (db : DB) (it : ReqItem) : Option Int :=
  match singleProduct db it.product_id with
  | none => none
  | some p =>
    match it.size with
    | none => some p.stock
    | some sz =>
      match singleSize db it.product_id sz with
      | none => none
      | some s => some s.stock

/-- Whether `createOrder`'s stock check fails for this item: the located row
exists and its stock is below the requested quantity. -/
def insufficientAt (db : DB) (it : ReqItem) : Bool :=
  match locatedStock db it with
  | none => false
  | some s => s < it.quantity

theorem verifyItems_append_error (db : DB) (l1 l2 : List ReqItem)
    (vs : List VerifiedItem) (t : Int) (e : OrderError)
    (h1 : verifyItems db l1 = .ok (vs, t)) (h2 : verifyItems db l2 = .error e) :
    verifyItems db (l1 ++ l2) = .error e := by
  induction l1 generalizing vs t with
  | nil => simpa using h2
  | cons x xs ih =>
    simp only [verifyItems, List.cons_append] at h1 ⊢
    cases hp : singleProduct db x.product_id with
    | none => simp [hp] at h1
    | some p =>
      simp only [hp] at h1 ⊢
      cases hs : x.size with
      | some sz =>
        simp only [hs] at h1 ⊢
        cases hsz : singleSize db x.product_id sz with
        | none => simp [hsz] at h1
        | some srow =>
          simp only [hsz] at h1 ⊢
          by_cases hq : srow.stock < x.quantity
          · simp [hq] at h1
          · simp only [if_neg hq] at h1 ⊢
            cases hr : verifyItems db xs with
            | error e2 => simp [hr] at h1
            | ok pr =>
              obtain ⟨vs2, t2⟩ := pr
              simp only [hr] at h1
              rw [List.append_eq, ih vs2 t2 hr]
      | none =>
        simp only [hs] at h1 ⊢
        by_cases hq : p.stock < x.quantity
        · simp [hq] at h1
        · simp only [if_neg hq] at h1 ⊢
          cases hr : verifyItems db xs with
          | error e2 => simp [hr] at h1
          | ok pr =>
            obtain ⟨vs2, t2⟩ := pr
            simp only [hr] at h1
            rw [List.append_eq, ih vs2 t2 hr]

theorem verifyItems_insufficient (db : DB) (items : List ReqItem)
    (h1 : ∀ it ∈ items, (locatedStock db it).isSome)
    (h2 : ∃ it ∈ items, insufficientAt db it = true) :
    ∃ pid, verifyItems db items = .error (.InsufficientStock pid) := by
  induction items with
  | nil => simp at h2
  | cons x xs ih =>
    have hx := h1 x (List.mem_cons_self x xs)
    cases hp : singleProduct db x.product_id with
    | none => simp [locatedStock, hp] at hx
    | some p =>
      cases hs : x.size with
      | some sz =>
        cases hsz : singleSize db x.product_id sz with
        | none => simp [locatedStock, hp, hs, hsz] at hx
        | some srow =>
          have hloc : locatedStock db x = some srow.stock := by
            simp [locatedStock, hp, hs, hsz]
          by_cases hq : srow.stock < x.quantity
          · refine ⟨x.product_id, ?_⟩
            simp only [verifyItems]
            simp [hp, hs, hsz, hq]
          · have hxf : insufficientAt db x = false := by
              rw [insufficientAt, hloc]
              simpa using hq
            have h2' : ∃ it ∈ xs, insufficientAt db it = true := by
              obtain ⟨it, hmem, hit⟩ := h2
              rcases List.mem_cons.mp hmem with heq | hmem'
              · rw [heq, hxf] at hit; simp at hit
              · exact ⟨it, hmem', hit⟩
            obtain ⟨pid, hrec⟩ := ih (fun it hm => h1 it (List.mem_cons_of_mem x hm)) h2'
            refine ⟨pid, ?_⟩
            simp only [verifyItems]
            simp [hp, hs, hsz, hq, hrec]
      | none =>
        have hloc : locatedStock db x = some p.stock := by
          simp [locatedStock, hp, hs]
        by_cases hq : p.stock < x.quantity
        · refine ⟨x.product_id, ?_⟩
          simp only [verifyItems]
          simp [hp, hs, hq]
        · have hxf : insufficientAt db x = false := by
            rw [insufficientAt, hloc]
            simpa using hq
          have h2' : ∃ it ∈ xs, insufficientAt db it = true := by
            obtain ⟨it, hmem, hit⟩ := h2
            rcases List.mem_cons.mp hmem with heq | hmem'
            · rw [heq, hxf] at hit; simp at hit
            · exact ⟨it, hmem', hit⟩
          obtain ⟨pid, hrec⟩ := ih (fun it hm => h1 it (List.mem_cons_of_mem x hm)) h2'
          refine ⟨pid, ?_⟩
          simp only [verifyItems]
          simp [hp, hs, hq, hrec]

theorem createOrder_of_verify_error (db : DB) (userId : Nat) (items : List ReqItem)
    (e : OrderError) (hval : validOrderRequest items = true)
    (h : verifyItems db items = .error e) :
    createOrder db userId items = (.error e, db) := by
  unfold createOrder
  rw [hval, h]
  rfl

/-! ## Facts about successful verification -/

/-- The catalog price `createOrder` captures for a product (0 when the
single-row lookup fails — irrelevant, since verification then fails). -/
def currentPrice (db : DB) (pid : Nat) : Int :=
  match singleProduct db pid with
  | some p => p.price
  | none => 0

/-- The request fields `createOrder` actually reads from a line item:
everything except the client-supplied price. -/
def ReqItem.toKey (it : ReqItem) : StockItem :=
  { product_id := it.product_id, size := it.size, quantity := it.quantity }

theorem verifyItems_ok_spec (db : DB) (items : List ReqItem) (vs : List VerifiedItem)
    (t : Int) (h : verifyItems db items = .ok (vs, t)) :
    t = (items.map (fun it => currentPrice db it.product_id * it.quantity)).sum ∧
    vs.map VerifiedItem.toStockItem = items.map ReqItem.toKey ∧
    ∀ v ∈ vs, v.price = currentPrice db v.product_id ∧
      (v.size = none →
        ∃ p, singleProduct db v.product_id = some p ∧ v.quantity ≤ p.stock) ∧
      (∀ sz, v.size = some sz →
        ∃ srow, singleSize db v.product_id sz = some srow ∧ v.quantity ≤ srow.stock) := by
  induction items generalizing vs t with
  | nil =>
    simp only [verifyItems] at h
    obtain ⟨hvs, ht⟩ : vs = [] ∧ t = 0 := by
      constructor <;> · injection h with h1; injection h1 with h2 h3; simp_all
    subst hvs
    subst ht
    simp
  | cons x xs ih =>
    simp only [verifyItems] at h
    cases hp : singleProduct db x.product_id with
    | none => simp [hp] at h
    | some p =>
      simp only [hp] at h
      have hcur : currentPrice db x.product_id = p.price := by
        simp [currentPrice, hp]
      cases hs : x.size with
      | some sz =>
        simp only [hs] at h
        cases hsz : singleSize db x.product_id sz with
        | none => simp [hsz] at h
        | some srow =>
          simp only [hsz] at h
          by_cases hq : srow.stock < x.quantity
          · simp [hq] at h
          · simp only [if_neg hq] at h
            cases hr : verifyItems db xs with
            | error e => simp [hr] at h
            | ok pr =>
              obtain ⟨vs2, t2⟩ := pr
              simp only [hr, Except.ok.injEq, Prod.mk.injEq] at h
              obtain ⟨hvs, ht⟩ := h
              obtain ⟨iht, ihk, ihv⟩ := ih vs2 t2 hr
              subst hvs
              subst ht
              refine ⟨?_, ?_, ?_⟩
              · simp only [List.map_cons, List.sum_cons, hcur, iht]
              · simp only [List.map_cons, ihk, VerifiedItem.toStockItem, ReqItem.toKey, hs]
              · intro v hv
                rcases List.mem_cons.mp hv with heq | hmem
                · subst heq
                  refine ⟨hcur.symm, ?_, ?_⟩
                  · intro hnone; simp at hnone
                  · intro sz' hsz'
                    obtain ⟨rfl⟩ : sz = sz' := by simpa using hsz'
                    exact ⟨srow, hsz, le_of_not_lt hq⟩
                · exact ihv v hmem
      | none =>
        simp only [hs] at h
        by_cases hq : p.stock < x.quantity
        · simp [hq] at h
        · simp only [if_neg hq] at h
          cases hr : verifyItems db xs with
          | error e => simp [hr] at h
          | ok pr =>
            obtain ⟨vs2, t2⟩ := pr
            simp only [hr, Except.ok.injEq, Prod.mk.injEq] at h
            obtain ⟨hvs, ht⟩ := h
            obtain ⟨iht, ihk, ihv⟩ := ih vs2 t2 hr
            subst hvs
            subst ht
            refine ⟨?_, ?_, ?_⟩
            · simp only [List.map_cons, List.sum_cons, hcur, iht]
            · simp only [List.map_cons, ihk, VerifiedItem.toStockItem, ReqItem.toKey, hs]
            · intro v hv
              rcases List.mem_cons.mp hv with heq | hmem
              · subst heq
                refine ⟨hcur.symm, ?_, ?_⟩
                · intro _; exact ⟨p, hp, le_of_not_lt hq⟩
                · intro sz' hsz'; simp at hsz'
              · exact ihv v hmem

theorem verifyItems_congr (db : DB) (items items2 : List ReqItem)
    (hk : items2.map ReqItem.toKey = items.map ReqItem.toKey) :
    verifyItems db items2 = verifyItems db items := by
  induction items generalizing items2 with
  | nil =>
    have h2 : items2 = [] := by
      have := hk
      simp only [List.map_nil] at this
      exact List.map_eq_nil_iff.mp this
    rw [h2]
  | cons x xs ih =>
    simp only [List.map_cons] at hk
    obtain ⟨y, ys, hitems2, hkey, hrest⟩ := List.map_eq_cons_iff.mp hk
    subst hitems2
    have h1 : y.product_id = x.product_id := congrArg StockItem.product_id hkey
    have h2 : y.size = x.size := congrArg StockItem.size hkey
    have h3 : y.quantity = x.quantity := congrArg StockItem.quantity hkey
    simp only [verifyItems, h1, h2, h3, ih ys hrest]

theorem all_map_key (l : List ReqItem) (p : StockItem → Bool) :
    (l.map ReqItem.toKey).all p = l.all (fun it => p (ReqItem.toKey it)) := by
  induction l with
  | nil => rfl
  | cons x t ih => simp [ih]

theorem validOrderRequest_eq_key (items : List ReqItem) :
    validOrderRequest items
      = (!(items.map ReqItem.toKey).isEmpty
        && (items.map ReqItem.toKey).all (fun k => 1 ≤ k.quantity)) := by
  unfold validOrderRequest
  congr 1
  · cases items <;> rfl
  · exact (all_map_key items (fun k => decide (1 ≤ k.quantity))).symm

theorem createOrder_congr (db : DB) (userId : Nat) (items items2 : List ReqItem)
    (hk : items2.map ReqItem.toKey = items.map ReqItem.toKey) :
    createOrder db userId items2 = createOrder db userId items := by
  unfold createOrder
  rw [validOrderRequest_eq_key items2, validOrderRequest_eq_key items, hk,
    verifyItems_congr db items items2 hk]

theorem createOrder_ok_inv (db : DB) (u : Nat) (items : List ReqItem) (oid : Nat)
    (total : Int) (db' : DB)
    (h : createOrder db u items = (.ok (oid, total), db')) :
    validOrderRequest items = true ∧ oid = db.next_order_id ∧
    ∃ vs, verifyItems db items = .ok (vs, total) ∧
      db' = reserveStocks
        { db with
          orders := db.orders ++
            [({ order_id := db.next_order_id, user_id := u,
                total_price := total, status := .pending } : Order)],
          order_items := db.order_items ++ vs.map (fun v =>
            ({ order_id := db.next_order_id, product_id := v.product_id, size := v.size,
               quantity := v.quantity, price := v.price } : OrderItem)),
          next_order_id := db.next_order_id + 1 }
        (vs.map VerifiedItem.toStockItem) := by
  unfold createOrder at h
  by_cases hval : validOrderRequest items
  · simp only [hval, Bool.not_true, Bool.false_eq_true, if_false] at h
    cases hver : verifyItems db items with
    | error e => simp [hver] at h
    | ok pr =>
      obtain ⟨vs, t⟩ := pr
      simp only [hver, Prod.mk.injEq, Except.ok.injEq] at h
      obtain ⟨⟨hoid, ht⟩, hdb⟩ := h
      subst ht
      exact ⟨hval, hoid.symm, vs, rfl, hdb.symm⟩
  · simp only [Bool.not_eq_true] at hval
    simp [hval] at h

/-- `updateOrderStatus` never touches the stock tables, whatever the
transition — including transitions into `cancelled`. -/
theorem updateOrderStatus_stocks_unchanged (db : DB) (oid : Nat) (st : OrderStatus) :
    (updateOrderStatus db oid st).2.products = db.products ∧
    (updateOrderStatus db oid st).2.product_sizes = db.product_sizes := by
  cases hso : singleOrder db oid with
  | none => simp [updateOrderStatus, hso]
  | some ord =>
    by_cases hc : (validStatusTransitions ord.status).contains st = true
    · have hmem : st ∈ validStatusTransitions ord.status := List.elem_iff.mp hc
      simp [updateOrderStatus, hso, hc, hmem, setOrderStatus]
    · have hmem : st ∉ validStatusTransitions ord.status :=
        fun hm => hc (List.elem_iff.mpr hm)
      simp [updateOrderStatus, hso, hc, hmem]

/-- The successful path of `cancelOrder`: set the status, then run the
restore loop over the order's items. -/
theorem cancelOrder_success_eq (db : DB) (userId : Nat) (role : String) (oid : Nat)
    (ord : Order) (h : singleOrder db oid = some ord)
    (hauth : (role != "admin" && ord.user_id != userId) = false)
    (hst : (ord.status != OrderStatus.pending
      && ord.status != OrderStatus.processing) = false) :
    cancelOrder db userId role oid
      = (.ok { ord with status := .cancelled },
         releaseStocks (setOrderStatus db oid .cancelled) (orderStockItems db oid)) := by
  unfold cancelOrder
  rw [h]
  simp only [hauth, hst, Bool.false_eq_true, if_false]
  rfl

theorem releaseStocks_products (db : DB) (its : List StockItem) :
    (releaseStocks db its).products
      = db.products.map (fun p =>
          { p with stock := p.stock + qtyAdjP (fun j => j.quantity) its p.product_id }) := by
  rw [releaseStocks_eq_fold]
  exact foldAdjust_products (fun j => j.quantity) its db

theorem releaseStocks_product_sizes (db : DB) (its : List StockItem) :
    (releaseStocks db its).product_sizes
      = db.product_sizes.map (fun s =>
          { s with stock := s.stock
              + qtyAdjS (fun j => j.quantity) its s.product_id s.size }) := by
  rw [releaseStocks_eq_fold]
  exact foldAdjust_product_sizes (fun j => j.quantity) its db

theorem releaseStocks_orders (db : DB) (its : List StockItem) :
    (releaseStocks db its).orders = db.orders := by
  rw [releaseStocks_eq_fold]
  exact (foldAdjust_rest (fun j => j.quantity) its db).1

theorem reserveStocks_orders (db : DB) (its : List StockItem) :
    (reserveStocks db its).orders = db.orders := by
  rw [reserveStocks_eq_fold]
  exact (foldAdjust_rest (fun j => -j.quantity) its db).1

theorem reserveStocks_order_items (db : DB) (its : List StockItem) :
    (reserveStocks db its).order_items = db.order_items := by
  rw [reserveStocks_eq_fold]
  exact (foldAdjust_rest (fun j => -j.quantity) its db).2.1

/-! ## Non-negativity of stock counters -/

theorem singleMatch_unique {α : Type} {p : α → Bool} {l : List α} {a : α}
    (h : singleMatch p l = some a) : ∀ x ∈ l, p x = true → x = a := by
  intro x hx hpx
  rw [singleMatch_eq_some] at h
  have : x ∈ l.filter p := List.mem_filter.mpr ⟨hx, hpx⟩
  rw [h] at this
  exact List.mem_singleton.mp this

theorem reserveStocks_products (db : DB) (its : List StockItem) :
    (reserveStocks db its).products
      = db.products.map (fun p =>
          { p with stock := p.stock + qtyAdjP (fun j => -j.quantity) its p.product_id }) := by
  rw [reserveStocks_eq_fold]
  exact foldAdjust_products (fun j => -j.quantity) its db

theorem reserveStocks_product_sizes (db : DB) (its : List StockItem) :
    (reserveStocks db its).product_sizes
      = db.product_sizes.map (fun s =>
          { s with stock := (s.stock
              + qtyAdjS (fun j => -j.quantity) its s.product_id s.size) }) := by
  rw [reserveStocks_eq_fold]
  exact foldAdjust_product_sizes (fun j => -j.quantity) its db

theorem qtyAdjP_of_no_match (f : StockItem → Int) (s : List StockItem) (pid : Nat)
    (h : ∀ it ∈ s, ¬(it.size = none ∧ pid = it.product_id)) :
    qtyAdjP f s pid = 0 := by
  induction s with
  | nil => rfl
  | cons it t ih =>
    have hhead : ¬(it.size = none ∧ pid = it.product_id) := h it (List.mem_cons_self it t)
    have hcond : (it.size.isNone && pid == it.product_id) = false := by
      rcases Option.eq_none_or_eq_some it.size with hn | ⟨v, hv⟩
      · have hnp : ¬pid = it.product_id := fun he => hhead ⟨hn, he⟩
        simp [hn, hnp]
      · simp [hv]
    simp only [qtyAdjP, List.map_cons, List.sum_cons, hcond, Bool.false_eq_true, if_false]
    rw [zero_add]
    exact ih (fun j hj => h j (List.mem_cons_of_mem it hj))

theorem qtyAdjS_of_no_match (f : StockItem → Int) (s : List StockItem) (pid : Nat)
    (sz : String) (h : ∀ it ∈ s, ¬(it.size = some sz ∧ pid = it.product_id)) :
    qtyAdjS f s pid sz = 0 := by
  induction s with
  | nil => rfl
  | cons it t ih =>
    have hhead : ¬(it.size = some sz ∧ pid = it.product_id) := h it (List.mem_cons_self it t)
    have hcond : (it.size == some sz && pid == it.product_id) = false := by
      by_cases hsz : it.size = some sz
      · have hnp : ¬pid = it.product_id := fun he => hhead ⟨hsz, he⟩
        simp [hsz, hnp]
      · simp [hsz]
    simp only [qtyAdjS, List.map_cons, List.sum_cons, hcond, Bool.false_eq_true, if_false]
    rw [zero_add]
    exact ih (fun j hj => h j (List.mem_cons_of_mem it hj))

theorem qtyAdjP_nonneg (s : List StockItem) (pid : Nat)
    (h : ∀ it ∈ s, 0 ≤ it.quantity) :
    0 ≤ qtyAdjP (fun j => j.quantity) s pid := by
  induction s with
  | nil => simp [qtyAdjP]
  | cons it t ih =>
    simp only [qtyAdjP, List.map_cons, List.sum_cons]
    have h1 : 0 ≤ qtyAdjP (fun j => j.quantity) t pid :=
      ih (fun j hj => h j (List.mem_cons_of_mem it hj))
    simp only [qtyAdjP] at h1
    have h0 : (0 : Int) ≤ if it.size.isNone && pid == it.product_id
        then it.quantity else 0 := by
      split
      · exact h it (List.mem_cons_self it t)
      · exact le_refl 0
    omega

theorem qtyAdjS_nonneg (s : List StockItem) (pid : Nat) (sz : String)
    (h : ∀ it ∈ s, 0 ≤ it.quantity) :
    0 ≤ qtyAdjS (fun j => j.quantity) s pid sz := by
  induction s with
  | nil => simp [qtyAdjS]
  | cons it t ih =>
    simp only [qtyAdjS, List.map_cons, List.sum_cons]
    have h1 : 0 ≤ qtyAdjS (fun j => j.quantity) t pid sz :=
      ih (fun j hj => h j (List.mem_cons_of_mem it hj))
    simp only [qtyAdjS] at h1
    have h0 : (0 : Int) ≤ if it.size == some sz && pid == it.product_id
        then it.quantity else 0 := by
      split
      · exact h it (List.mem_cons_self it t)
      · exact le_refl 0
    omega

theorem reserve_adjP_nonneg (s : List StockItem) (p : Product) (hp : 0 ≤ p.stock)
    (hnd : (s.map (fun it => (it.product_id, it.size))).Nodup)
    (hb : ∀ it ∈ s, it.size = none → it.product_id = p.product_id →
      it.quantity ≤ p.stock) :
    0 ≤ p.stock + qtyAdjP (fun j => -j.quantity) s p.product_id := by
  induction s with
  | nil => simpa [qtyAdjP]
  | cons it t ih =>
    simp only [List.map_cons, List.nodup_cons] at hnd
    obtain ⟨hknot, hndt⟩ := hnd
    by_cases hm : it.size = none ∧ p.product_id = it.product_id
    · obtain ⟨hsz, hpid⟩ := hm
      have hcond : (it.size.isNone && p.product_id == it.product_id) = true := by
        simp [hsz, hpid]
      have hrest : qtyAdjP (fun j => -j.quantity) t p.product_id = 0 := by
        apply qtyAdjP_of_no_match
        intro j hj ⟨hjsz, hjpid⟩
        apply hknot
        have : (j.product_id, j.size) = (it.product_id, it.size) := by
          rw [hjsz, hsz, ← hjpid, ← hpid]
        rw [← this]
        exact List.mem_map_of_mem _ hj
      simp only [qtyAdjP, List.map_cons, List.sum_cons, hcond, if_true]
      simp only [qtyAdjP] at hrest
      rw [hrest]
      have := hb it (List.mem_cons_self it t) hsz hpid.symm
      omega
    · have hcond : (it.size.isNone && p.product_id == it.product_id) = false := by
        rcases Option.eq_none_or_eq_some it.size with hn | ⟨v, hv⟩
        · have hnp : ¬p.product_id = it.product_id := fun he => hm ⟨hn, he⟩
          simp [hn, hnp]
        · simp [hv]
      have hrec := ih hndt (fun j hj => hb j (List.mem_cons_of_mem it hj))
      simp only [qtyAdjP, List.map_cons, List.sum_cons, hcond, Bool.false_eq_true,
        if_false] at hrec ⊢
      omega

theorem reserve_adjS_nonneg (s : List StockItem) (srow : ProductSize)
    (hp : 0 ≤ srow.stock)
    (hnd : (s.map (fun it => (it.product_id, it.size))).Nodup)
    (hb : ∀ it ∈ s, it.size = some srow.size → it.product_id = srow.product_id →
      it.quantity ≤ srow.stock) :
    0 ≤ srow.stock + qtyAdjS (fun j => -j.quantity) s srow.product_id srow.size := by
  induction s with
  | nil => simpa [qtyAdjS]
  | cons it t ih =>
    simp only [List.map_cons, List.nodup_cons] at hnd
    obtain ⟨hknot, hndt⟩ := hnd
    by_cases hm : it.size = some srow.size ∧ srow.product_id = it.product_id
    · obtain ⟨hsz, hpid⟩ := hm
      have hcond : (it.size == some srow.size
          && srow.product_id == it.product_id) = true := by
        simp [hsz, hpid]
      have hrest : qtyAdjS (fun j => -j.quantity) t srow.product_id srow.size = 0 := by
        apply qtyAdjS_of_no_match
        intro j hj ⟨hjsz, hjpid⟩
        apply hknot
        have : (j.product_id, j.size) = (it.product_id, it.size) := by
          rw [hjsz, hsz, ← hjpid, ← hpid]
        rw [← this]
        exact List.mem_map_of_mem _ hj
      simp only [qtyAdjS, List.map_cons, List.sum_cons, hcond, if_true]
      simp only [qtyAdjS] at hrest
      rw [hrest]
      have := hb it (List.mem_cons_self it t) hsz hpid.symm
      omega
    · have hcond : (it.size == some srow.size
          && srow.product_id == it.product_id) = false := by
        by_cases hsz : it.size = some srow.size
        · have hnp : ¬srow.product_id = it.product_id := fun he => hm ⟨hsz, he⟩
          simp [hsz, hnp]
        · simp [hsz]
      have hrec := ih hndt (fun j hj => hb j (List.mem_cons_of_mem it hj))
      simp only [qtyAdjS, List.map_cons, List.sum_cons, hcond, Bool.false_eq_true,
        if_false] at hrec ⊢
      omega

theorem singleProduct_unique {db : DB} {pid : Nat} {prod : Product}
    (h : singleProduct db pid = some prod) :
    ∀ p ∈ db.products, p.product_id = pid → p = prod := by
  intro p hp hpp
  have h' : singleMatch (fun p => p.product_id == pid) db.products = some prod := h
  exact singleMatch_unique h' p hp (by simp [hpp])

theorem singleSize_unique {db : DB} {pid : Nat} {sz : String} {srow : ProductSize}
    (h : singleSize db pid sz = some srow) :
    ∀ s ∈ db.product_sizes, s.product_id = pid → s.size = sz → s = srow := by
  intro s hs h1 h2
  have h' : singleMatch (fun s => s.product_id == pid && s.size == sz)
      db.product_sizes = some srow := h
  exact singleMatch_unique h' s hs (by simp [h1, h2])

theorem updateOrderStatus_order_items (db : DB) (oid : Nat) (st : OrderStatus) :
    (updateOrderStatus db oid st).2.order_items = db.order_items := by
  cases hso : singleOrder db oid with
  | none => simp [updateOrderStatus, hso]
  | some ord =>
    by_cases hc : (validStatusTransitions ord.status).contains st = true
    · have hmem : st ∈ validStatusTransitions ord.status := List.elem_iff.mp hc
      simp [updateOrderStatus, hso, hc, hmem, setOrderStatus]
    · have hmem : st ∉ validStatusTransitions ord.status :=
        fun hm => hc (List.elem_iff.mpr hm)
      simp [updateOrderStatus, hso, hc, hmem]

theorem releaseStocks_order_items (db : DB) (its : List StockItem) :
    (releaseStocks db its).order_items = db.order_items := by
  rw [releaseStocks_eq_fold]
  exact (foldAdjust_rest (fun j => j.quantity) its db).2.1

/-- Either `cancelOrder` leaves the state unchanged (error paths), or it
cancels the order and runs the restore loop. -/
theorem cancelOrder_state (db : DB) (u : Nat) (r : String) (oid : Nat) :
    (cancelOrder db u r oid).2 = db ∨
    (cancelOrder db u r oid).2
      = releaseStocks (setOrderStatus db oid .cancelled) (orderStockItems db oid) := by
  cases hso : singleOrder db oid with
  | none => left; simp [cancelOrder, hso]
  | some ord =>
    by_cases h1 : (r != "admin" && ord.user_id != u) = true
    · left; simp [cancelOrder, hso, h1]
    · have h1' : (r != "admin" && ord.user_id != u) = false := by
        simpa using h1
      by_cases h2 : (ord.status != OrderStatus.pending
          && ord.status != OrderStatus.processing) = true
      · left
        unfold cancelOrder
        rw [hso]
        simp only [h1', Bool.false_eq_true, if_false, h2, if_true]
      · have h2' : (ord.status != OrderStatus.pending
            && ord.status != OrderStatus.processing) = false := by
          simpa using h2
        right
        unfold cancelOrder
        rw [hso]
        simp only [h1', h2', Bool.false_eq_true, if_false]
        rfl

/-- Either `createOrder` leaves the state unchanged (validation or
verification failure), or it appends the order header and items and runs the
decrement loop. -/
theorem createOrder_state (db : DB) (u : Nat) (items : List ReqItem) :
    (createOrder db u items).2 = db ∨
    (validOrderRequest items = true ∧
      ∃ vs t, verifyItems db items = .ok (vs, t) ∧
        (createOrder db u items).2
          = reserveStocks
            { db with
              orders := db.orders ++
                [({ order_id := db.next_order_id, user_id := u,
                    total_price := t, status := .pending } : Order)],
              order_items := db.order_items ++ vs.map (fun v =>
                ({ order_id := db.next_order_id, product_id := v.product_id,
                   size := v.size, quantity := v.quantity,
                   price := v.price } : OrderItem)),
              next_order_id := db.next_order_id + 1 }
            (vs.map VerifiedItem.toStockItem)) := by
  by_cases hval : validOrderRequest items
  · cases hver : verifyItems db items with
    | error e =>
      left
      unfold createOrder
      simp [hval, hver]
    | ok pr =>
      obtain ⟨vs, t⟩ := pr
      right
      refine ⟨hval, vs, t, rfl, ?_⟩
      unfold createOrder
      simp only [hval, Bool.not_true, Bool.false_eq_true, if_false, hver]
  · left
    unfold createOrder
    simp only [Bool.not_eq_true] at hval
    simp [hval]

/-- `addToCart` never touches products, per-size stock rows or order items:
only the `cart_items` table. -/
theorem addToCart_stock_fields (db : DB) (u pid : Nat) (q : Int) (sz : Option String) :
    (addToCart db u pid q sz).2.products = db.products ∧
    (addToCart db u pid q sz).2.product_sizes = db.product_sizes ∧
    (addToCart db u pid q sz).2.order_items = db.order_items := by
  unfold addToCart
  repeat' split
  all_goals exact ⟨rfl, rfl, rfl⟩

/-- `updateCartItem` mutates only the `cart_items` table. -/
theorem updateCartItem_stock_fields (db : DB) (u itemId : Nat) (q : Int) :
    (updateCartItem db u itemId q).2.products = db.products ∧
    (updateCartItem db u itemId q).2.product_sizes = db.product_sizes ∧
    (updateCartItem db u itemId q).2.order_items = db.order_items := by
  unfold updateCartItem
  repeat' split
  all_goals exact ⟨rfl, rfl, rfl⟩

/-- `removeFromCart` mutates only the `cart_items` table. -/
theorem removeFromCart_stock_fields (db : DB) (u itemId : Nat) :
    (removeFromCart db u itemId).2.products = db.products ∧
    (removeFromCart db u itemId).2.product_sizes = db.product_sizes ∧
    (removeFromCart db u itemId).2.order_items = db.order_items := by
  unfold removeFromCart
  repeat' split
  all_goals exact ⟨rfl, rfl, rfl⟩

/-- `clearCart` mutates only the `cart_items` table. -/
theorem clearCart_stock_fields (db : DB) (u : Nat) :
    (clearCart db u).2.products = db.products ∧
    (clearCart db u).2.product_sizes = db.product_sizes ∧
    (clearCart db u).2.order_items = db.order_items :=
  ⟨rfl, rfl, rfl⟩

/-- The §3 invariant plus the auxiliary fact that makes it inductive: all
stock counters and all persisted order-item quantities are non-negative. -/
def goodDB (db : DB) : Prop :=
  (∀ p ∈ db.products, 0 ≤ p.stock) ∧
  (∀ s ∈ db.product_sizes, 0 ≤ s.stock) ∧
  (∀ oi ∈ db.order_items, 0 ≤ oi.quantity)

/-- The proviso the counterexample forces: a `createOrder` request must not
name the same stock row (product, optional size) in two line items. -/
def distinctRows : Op → Prop
  | .create _ items => (items.map (fun it => (it.product_id, it.size))).Nodup
  | _ => True

theorem create_preserves_goodDB (db : DB) (u : Nat) (items : List ReqItem)
    (hg : goodDB db)
    (hd : (items.map (fun it => (it.product_id, it.size))).Nodup) :
    goodDB (createOrder db u items).2 := by
  obtain ⟨hgp, hgs, hgi⟩ := hg
  rcases createOrder_state db u items with hs | ⟨hval, vs, t, hver, hs⟩
  · rw [hs]; exact ⟨hgp, hgs, hgi⟩
  · obtain ⟨_, hkeys, hitems⟩ := verifyItems_ok_spec db items vs t hver
    have hndk : ((vs.map VerifiedItem.toStockItem).map
        (fun it => (it.product_id, it.size))).Nodup := by
      have h := congrArg (List.map (fun it : StockItem => (it.product_id, it.size))) hkeys
      rw [List.map_map, List.map_map] at h
      rw [List.map_map, h]
      exact hd
    have hq : ∀ v ∈ vs, 0 ≤ v.quantity := by
      intro v hv
      have hmem : VerifiedItem.toStockItem v ∈ items.map ReqItem.toKey := by
        rw [← hkeys]
        exact List.mem_map_of_mem _ hv
      obtain ⟨itq, hitq, hkey⟩ := List.mem_map.mp hmem
      have hqeq : itq.quantity = v.quantity := congrArg StockItem.quantity hkey
      have hall : items.all (fun it => 1 ≤ it.quantity) = true := by
        have hv2 := hval
        unfold validOrderRequest at hv2
        rw [Bool.and_eq_true] at hv2
        exact hv2.2
      have h1 : 1 ≤ itq.quantity := by
        have := List.all_eq_true.mp hall itq hitq
        simpa using this
      omega
    refine ⟨?_, ?_, ?_⟩
    · intro p' hp'
      rw [hs, reserveStocks_products] at hp'
      obtain ⟨p, hp, rfl⟩ := List.mem_map.mp hp'
      have hb : ∀ it ∈ vs.map VerifiedItem.toStockItem, it.size = none →
          it.product_id = p.product_id → it.quantity ≤ p.stock := by
        intro it hit hsz hpid
        obtain ⟨v, hv, rfl⟩ := List.mem_map.mp hit
        obtain ⟨_, hnone, _⟩ := hitems v hv
        obtain ⟨prod, hprod, hle⟩ := hnone hsz
        have hpeq : p = prod := singleProduct_unique hprod p hp hpid.symm
        rw [hpeq]
        exact hle
      exact reserve_adjP_nonneg (vs.map VerifiedItem.toStockItem) p (hgp p hp) hndk hb
    · intro s' hs'
      rw [hs, reserveStocks_product_sizes] at hs'
      obtain ⟨srow, hsrow, rfl⟩ := List.mem_map.mp hs'
      have hb : ∀ it ∈ vs.map VerifiedItem.toStockItem, it.size = some srow.size →
          it.product_id = srow.product_id → it.quantity ≤ srow.stock := by
        intro it hit hsz hpid
        obtain ⟨v, hv, rfl⟩ := List.mem_map.mp hit
        obtain ⟨_, _, hsome⟩ := hitems v hv
        obtain ⟨srow2, hsrow2, hle⟩ := hsome srow.size hsz
        have hseq : srow = srow2 := singleSize_unique hsrow2 srow hsrow hpid.symm rfl
        rw [hseq]
        exact hle
      exact reserve_adjS_nonneg (vs.map VerifiedItem.toStockItem) srow
        (hgs srow hsrow) hndk hb
    · intro oi hoi
      rw [hs, reserveStocks_order_items] at hoi
      simp only [List.mem_append] at hoi
      rcases hoi with hold | hnew
      · exact hgi oi hold
      · obtain ⟨v, hv, rfl⟩ := List.mem_map.mp hnew
        exact hq v hv

theorem cancel_preserves_goodDB (db : DB) (u : Nat) (r : String) (oid : Nat)
    (hg : goodDB db) : goodDB (cancelOrder db u r oid).2 := by
  obtain ⟨hgp, hgs, hgi⟩ := hg
  rcases cancelOrder_state db u r oid with hs | hs
  · rw [hs]; exact ⟨hgp, hgs, hgi⟩
  · have hqty : ∀ it ∈ orderStockItems db oid, 0 ≤ it.quantity := by
      intro it hit
      unfold orderStockItems at hit
      obtain ⟨oi, hoif, rfl⟩ := List.mem_map.mp hit
      exact hgi oi (List.mem_filter.mp hoif).1
    refine ⟨?_, ?_, ?_⟩
    · intro p' hp'
      rw [hs, releaseStocks_products, setOrderStatus_products] at hp'
      obtain ⟨p, hp, rfl⟩ := List.mem_map.mp hp'
      have h1 := qtyAdjP_nonneg (orderStockItems db oid) p.product_id hqty
      have h2 := hgp p hp
      simp only []
      omega
    · intro s' hs'
      rw [hs, releaseStocks_product_sizes] at hs'
      have hsz : (setOrderStatus db oid .cancelled).product_sizes
          = db.product_sizes := rfl
      rw [hsz] at hs'
      obtain ⟨srow, hsrow, rfl⟩ := List.mem_map.mp hs'
      have h1 := qtyAdjS_nonneg (orderStockItems db oid) srow.product_id srow.size hqty
      have h2 := hgs srow hsrow
      simp only []
      omega
    · intro oi hoi
      rw [hs, releaseStocks_order_items, setOrderStatus_order_items] at hoi
      exact hgi oi hoi

/-! ## Concrete states used to witness the hypotheses of the claim theorems -/

/-- A pending order owned by user 7. -/
def wOrder : Order := { order_id := 1, user_id := 7, total_price := 100, status := .pending }

/-- A small store state: one product with general stock 5 and a size row
`M` with stock 4, one pending order with one line item. -/
def wDB : DB :=
  { products := [{ product_id := 1, name := "Kaos", price := 50, stock := 5 }],
    product_sizes := [{ product_id := 1, size := "M", stock := 4 }],
    orders := [wOrder],
    order_items := [{ order_id := 1, product_id := 1, size := none, quantity := 2, price := 50 }],
    cart_items := [],
    next_order_id := 2,
    next_item_id := 1 }

/-! ## Claims -/

/-- C1: for every persisted order, `updateOrderStatus` with a target in the
transition table's allowed set for the order's current status succeeds and
the persisted order's status becomes the target; for any other target it
fails with `InvalidTransition` (HTTP 400) and the state is unchanged. -/
theorem updateOrderStatus_follows_transition_table (db : DB) (oid : Nat) (ord : Order)
    (target : OrderStatus) (h : singleOrder db oid = some ord) :
    ((validStatusTransitions ord.status).contains target = true →
      (updateOrderStatus db oid target).1 = .ok { ord with status := target } ∧
      singleOrder (updateOrderStatus db oid target).2 oid
        = some { ord with status := target }) ∧
    ((validStatusTransitions ord.status).contains target = false →
      updateOrderStatus db oid target
        = (.error (.InvalidTransition ord.status target), db) ∧
      (OrderError.InvalidTransition ord.status target).httpStatus = 400) := by
  constructor
  · intro hc
    have hmem : target ∈ validStatusTransitions ord.status := List.elem_iff.mp hc
    have hfst : updateOrderStatus db oid target
        = (.ok { ord with status := target }, setOrderStatus db oid target) := by
      unfold updateOrderStatus
      rw [h]
      simp [hc, hmem]
    rw [hfst]
    exact ⟨rfl, singleOrder_setOrderStatus db oid ord target h⟩
  · intro hc
    have hmem : target ∉ validStatusTransitions ord.status := by
      intro hm
      have h2 : (validStatusTransitions ord.status).contains target = true :=
        List.elem_iff.mpr hm
      rw [h2] at hc
      exact absurd hc (by simp)
    have hfst : updateOrderStatus db oid target
        = (.error (.InvalidTransition ord.status target), db) := by
      unfold updateOrderStatus
      rw [h]
      simp [hc, hmem]
    exact ⟨hfst, rfl⟩

/-- Witness for C1 at a concrete state: order 1 is pending, and the theorem
instance for target `processing` holds. -/
theorem updateOrderStatus_follows_transition_table_witness :
    singleOrder wDB 1 = some wOrder ∧
    (((validStatusTransitions wOrder.status).contains OrderStatus.processing = true →
      (updateOrderStatus wDB 1 OrderStatus.processing).1
        = .ok { wOrder with status := OrderStatus.processing } ∧
      singleOrder (updateOrderStatus wDB 1 OrderStatus.processing).2 1
        = some { wOrder with status := OrderStatus.processing }) ∧
    ((validStatusTransitions wOrder.status).contains OrderStatus.processing = false →
      updateOrderStatus wDB 1 OrderStatus.processing
        = (.error (.InvalidTransition wOrder.status OrderStatus.processing), wDB) ∧
      (OrderError.InvalidTransition wOrder.status OrderStatus.processing).httpStatus
        = 400)) :=
  ⟨by decide,
    updateOrderStatus_follows_transition_table wDB 1 wOrder OrderStatus.processing
      (by decide)⟩

/-- C2: the reserve decrement loop (run by `createOrder`) followed by the
release increment loop (run by `cancelOrder`) over the identical line items
restores the whole state — in particular every touched stock row, general or
per-size — to its pre-reservation value. -/
theorem reserve_then_release_roundtrip (db : DB) (items : List StockItem) :
    releaseStocks (reserveStocks db items) items = db :=
  releaseStocks_reserveStocks db items

/-- C8: a non-admin caller asking for an order they do not own (including the
case that no such order exists) gets `NotFound` (HTTP 404) from
`getOrderById` — the result of scoping the query to the caller's own orders,
not of a separate ownership check — and the answer coincides with the answer
any state without that order id gives, so the two cases are
indistinguishable. -/
theorem getOrderById_scopes_to_owner (db : DB) (userId : Nat) (role : String)
    (oid : Nat) (hrole : role ≠ "admin")
    (hown : ∀ o ∈ db.orders, o.order_id = oid → o.user_id ≠ userId) :
    getOrderById db userId role oid = .error .NotFound ∧
    OrderError.httpStatus .NotFound = 404 ∧
    (∀ db2 : DB, (∀ o ∈ db2.orders, o.order_id ≠ oid) →
      getOrderById db2 userId role oid = getOrderById db userId role oid) := by
  have hb : (role != "admin") = true := bne_iff_ne.mpr hrole
  have hmain : ∀ d : DB, (∀ o ∈ d.orders, o.order_id = oid → o.user_id ≠ userId) →
      getOrderById d userId role oid = .error .NotFound := by
    intro d hd
    simp only [getOrderById, hb, if_true]
    have hnil : (d.orders.filter (fun o => o.order_id == oid)).filter
        (fun o => o.user_id == userId) = [] := by
      rw [List.filter_eq_nil_iff]
      intro o hmem
      have h1 := List.mem_filter.mp hmem
      have hid : o.order_id = oid := by
        have := h1.2
        simpa using this
      have := hd o h1.1 hid
      simpa using this
    rw [hnil]
  refine ⟨hmain db hown, rfl, ?_⟩
  intro db2 h2
  rw [hmain db hown, hmain db2 (fun o hm hid => absurd hid (h2 o hm))]

/-- Witness for C8: user 8 (not an admin) asks for order 1, which belongs to
user 7; the scoped query yields 404. -/
theorem getOrderById_scopes_to_owner_witness :
    ("user" : String) ≠ "admin" ∧
    (getOrderById wDB 8 "user" 1 = .error .NotFound ∧
      OrderError.httpStatus .NotFound = 404 ∧
      (∀ db2 : DB, (∀ o ∈ db2.orders, o.order_id ≠ 1) →
        getOrderById db2 8 "user" 1 = getOrderById wDB 8 "user" 1)) :=
  ⟨by decide,
    getOrderById_scopes_to_owner wDB 8 "user" 1 (by decide) (by decide)⟩

/-- C10: a non-admin caller cancelling an existing order of another user is
rejected by an explicit ownership check with `Forbidden` (HTTP 403), and the
state — in particular the order and all stock rows — is unchanged. -/
theorem cancelOrder_foreign_order_forbidden (db : DB) (userId : Nat) (role : String)
    (oid : Nat) (ord : Order) (h : singleOrder db oid = some ord)
    (hrole : role ≠ "admin") (hown : ord.user_id ≠ userId) :
    cancelOrder db userId role oid = (.error .Forbidden, db) ∧
    OrderError.httpStatus .Forbidden = 403 := by
  have hb : (role != "admin" && ord.user_id != userId) = true := by
    rw [Bool.and_eq_true]
    exact ⟨bne_iff_ne.mpr hrole, bne_iff_ne.mpr hown⟩
  have hfst : cancelOrder db userId role oid = (.error .Forbidden, db) := by
    unfold cancelOrder
    rw [h]
    simp [bne_iff_ne.mpr hrole, bne_iff_ne.mpr hown]
  exact ⟨hfst, rfl⟩

/-- Witness for C10: user 8 (role `user`) cancels order 1, owned by user 7;
the call returns 403 and leaves the state unchanged. -/
theorem cancelOrder_foreign_order_forbidden_witness :
    singleOrder wDB 1 = some wOrder ∧
    (cancelOrder wDB 8 "user" 1 = (.error .Forbidden, wDB) ∧
      OrderError.httpStatus .Forbidden = 403) :=
  ⟨by decide,
    cancelOrder_foreign_order_forbidden wDB 8 "user" 1 wOrder (by decide) (by decide)
      (by decide)⟩

/-- C3: when every line item's stock row is locatable and some line item
requests more than the located row's current stock, `createOrder` fails with
`InsufficientStock` (HTTP 400) and the state — in particular the `orders`
table — is unchanged: no order header is persisted. -/
theorem createOrder_insufficient_stock_rejected (db : DB) (userId : Nat)
    (items : List ReqItem) (hval : validOrderRequest items = true)
    (h1 : ∀ it ∈ items, (locatedStock db it).isSome)
    (h2 : ∃ it ∈ items, insufficientAt db it = true) :
    ∃ pid, createOrder db userId items = (.error (.InsufficientStock pid), db) ∧
      (OrderError.InsufficientStock pid).httpStatus = 400 ∧
      (createOrder db userId items).2.orders = db.orders := by
  obtain ⟨pid, he⟩ := verifyItems_insufficient db items h1 h2
  have hco := createOrder_of_verify_error db userId items _ hval he
  exact ⟨pid, hco, rfl, by rw [hco]⟩

/-- Witness for C3: product 1 has stock 5 and a single line item requests 9,
so the order is rejected and no header is written. -/
theorem createOrder_insufficient_stock_rejected_witness :
    validOrderRequest [⟨1, none, 9, none⟩] = true ∧
    (∀ it ∈ ([⟨1, none, 9, none⟩] : List ReqItem), (locatedStock wDB it).isSome) ∧
    (∃ it ∈ ([⟨1, none, 9, none⟩] : List ReqItem), insufficientAt wDB it = true) ∧
    (∃ pid, createOrder wDB 7 [⟨1, none, 9, none⟩]
        = (.error (.InsufficientStock pid), wDB) ∧
      (OrderError.InsufficientStock pid).httpStatus = 400 ∧
      (createOrder wDB 7 [⟨1, none, 9, none⟩]).2.orders = wDB.orders) :=
  ⟨by decide, by decide, by decide,
    createOrder_insufficient_stock_rejected wDB 7 [⟨1, none, 9, none⟩]
      (by decide) (by decide) (by decide)⟩

/-- Counterexample to C9 as stated: `createOrder` on a line item whose
product id (99) references no product fails with `ProductNotFound`, but the
HTTP status at that return site is 400, not the 404 the claim asserts for
not-found conditions. -/
theorem createOrder_product_not_found_is_400 :
    (createOrder wDB 7 [⟨99, none, 1, none⟩]).1 = .error (.ProductNotFound 99) ∧
    (OrderError.ProductNotFound 99).httpStatus = 400 ∧
    ¬(OrderError.ProductNotFound 99).httpStatus = 404 := by
  refine ⟨?_, rfl, by decide⟩
  rfl

/-- C9 amended: a line item whose product does not exist makes `createOrder`
fail with `ProductNotFound`, and a specified size absent for an existing
product makes it fail with `SizeNotFound`; both are returned with HTTP 400
(not 404) and leave the state unchanged.  The failure reported is that of the
first failing item (the items before it must verify successfully). -/
theorem createOrder_missing_product_or_size (db : DB) (userId : Nat)
    (pre : List ReqItem) (it : ReqItem) (rest : List ReqItem)
    (vs : List VerifiedItem) (t : Int)
    (hval : validOrderRequest (pre ++ it :: rest) = true)
    (hpre : verifyItems db pre = .ok (vs, t)) :
    (singleProduct db it.product_id = none →
      createOrder db userId (pre ++ it :: rest)
        = (.error (.ProductNotFound it.product_id), db) ∧
      (OrderError.ProductNotFound it.product_id).httpStatus = 400) ∧
    (∀ sz p, it.size = some sz → singleProduct db it.product_id = some p →
      singleSize db it.product_id sz = none →
      createOrder db userId (pre ++ it :: rest)
        = (.error (.SizeNotFound it.product_id sz), db) ∧
      (OrderError.SizeNotFound it.product_id sz).httpStatus = 400) := by
  constructor
  · intro hp
    have he : verifyItems db (it :: rest) = .error (.ProductNotFound it.product_id) := by
      simp [verifyItems, hp]
    exact ⟨createOrder_of_verify_error db userId _ _ hval
      (verifyItems_append_error db pre (it :: rest) vs t _ hpre he), rfl⟩
  · intro sz p hs hp hsz
    have he : verifyItems db (it :: rest) = .error (.SizeNotFound it.product_id sz) := by
      simp [verifyItems, hp, hs, hsz]
    exact ⟨createOrder_of_verify_error db userId _ _ hval
      (verifyItems_append_error db pre (it :: rest) vs t _ hpre he), rfl⟩

/-- Witness for the amended C9 at a concrete input: a single-item request for
the nonexistent product 99 is rejected with `ProductNotFound` and HTTP 400. -/
theorem createOrder_missing_product_or_size_witness :
    validOrderRequest ([] ++ (⟨99, none, 1, none⟩ : ReqItem) :: []) = true ∧
    verifyItems wDB [] = .ok ([], 0) ∧
    ((singleProduct wDB (99 : Nat) = none →
      createOrder wDB 7 ([] ++ (⟨99, none, 1, none⟩ : ReqItem) :: [])
        = (.error (.ProductNotFound 99), wDB) ∧
      (OrderError.ProductNotFound 99).httpStatus = 400) ∧
    (∀ sz p, (⟨99, none, 1, none⟩ : ReqItem).size = some sz →
      singleProduct wDB 99 = some p →
      singleSize wDB 99 sz = none →
      createOrder wDB 7 ([] ++ (⟨99, none, 1, none⟩ : ReqItem) :: [])
        = (.error (.SizeNotFound 99 sz), wDB) ∧
      (OrderError.SizeNotFound 99 sz).httpStatus = 400)) :=
  ⟨by decide, rfl,
    createOrder_missing_product_or_size wDB 7 [] ⟨99, none, 1, none⟩ [] [] 0
      (by decide) rfl⟩

/-- Counterexample to C6 as stated: `updateOrderStatus` can transition order
1 from `pending` to `cancelled` (a valid transition in the table), yet the
stock of product 1 — which the order's only line item (quantity 2) should
restore — is left at 5 instead of 7: no release is invoked on this path. -/
theorem updateOrderStatus_cancel_skips_release :
    (updateOrderStatus wDB 1 .cancelled).1 = .ok { wOrder with status := .cancelled } ∧
    singleOrder (updateOrderStatus wDB 1 .cancelled).2 1
      = some { wOrder with status := .cancelled } ∧
    (updateOrderStatus wDB 1 .cancelled).2.products = wDB.products ∧
    ¬(updateOrderStatus wDB 1 .cancelled).2.products
        = wDB.products.map (fun p =>
            { p with stock := p.stock
                + qtyAdjP (fun j => j.quantity) (orderStockItems wDB 1) p.product_id }) :=
  ⟨rfl, by decide, rfl, by decide⟩

/-- C6 amended: stock release accompanies only the `cancelOrder` handler's
transition to `cancelled` — there it increments each line item's matching
stock row (per-size when a size is present, otherwise the general row) by the
item's quantity — whereas `updateOrderStatus` transitions to `cancelled`
without touching any stock row. -/
theorem release_only_in_cancelOrder (db : DB) (userId : Nat) (role : String)
    (oid : Nat) (ord : Order) (h : singleOrder db oid = some ord)
    (hauth : (role != "admin" && ord.user_id != userId) = false)
    (hst : (ord.status != OrderStatus.pending
      && ord.status != OrderStatus.processing) = false) :
    ((cancelOrder db userId role oid).2.products
        = db.products.map (fun p =>
            { p with stock := p.stock
                + qtyAdjP (fun j => j.quantity) (orderStockItems db oid) p.product_id }) ∧
      (cancelOrder db userId role oid).2.product_sizes
        = db.product_sizes.map (fun s =>
            { s with stock := (s.stock
                + qtyAdjS (fun j => j.quantity) (orderStockItems db oid)
                    s.product_id s.size) })) ∧
    (∀ st : OrderStatus,
      (updateOrderStatus db oid st).2.products = db.products ∧
      (updateOrderStatus db oid st).2.product_sizes = db.product_sizes) := by
  have hc := cancelOrder_success_eq db userId role oid ord h hauth hst
  refine ⟨⟨?_, ?_⟩, fun st => updateOrderStatus_stocks_unchanged db oid st⟩
  · rw [hc]
    exact releaseStocks_products (setOrderStatus db oid .cancelled) (orderStockItems db oid)
  · rw [hc]
    exact releaseStocks_product_sizes (setOrderStatus db oid .cancelled)
      (orderStockItems db oid)

/-- Witness for the amended C6: user 7 cancels their own pending order 1 and
product 1's stock is incremented by the line item's quantity, while
`updateOrderStatus` leaves stocks alone. -/
theorem release_only_in_cancelOrder_witness :
    singleOrder wDB 1 = some wOrder ∧
    (("user" != "admin" && wOrder.user_id != (7 : Nat)) = false) ∧
    ((wOrder.status != OrderStatus.pending
      && wOrder.status != OrderStatus.processing) = false) ∧
    (((cancelOrder wDB 7 "user" 1).2.products
        = wDB.products.map (fun p =>
            { p with stock := p.stock
                + qtyAdjP (fun j => j.quantity) (orderStockItems wDB 1) p.product_id }) ∧
      (cancelOrder wDB 7 "user" 1).2.product_sizes
        = wDB.product_sizes.map (fun s =>
            { s with stock := (s.stock
                + qtyAdjS (fun j => j.quantity) (orderStockItems wDB 1)
                    s.product_id s.size) })) ∧
    (∀ st : OrderStatus,
      (updateOrderStatus wDB 1 st).2.products = wDB.products ∧
      (updateOrderStatus wDB 1 st).2.product_sizes = wDB.product_sizes)) :=
  ⟨by decide, by decide, by decide,
    release_only_in_cancelOrder wDB 7 "user" 1 wOrder (by decide) (by decide) (by decide)⟩

/-- C7: an owner-initiated `cancelOrder` succeeds from `pending` or
`processing` — the order becomes `cancelled` and every line item's stock row
is restored by its quantity — and from any other status it fails with
`InvalidTransition` (HTTP 400), leaving the state unchanged. -/
theorem cancelOrder_owner_rules (db : DB) (userId : Nat) (role : String) (oid : Nat)
    (ord : Order) (h : singleOrder db oid = some ord) (hown : ord.user_id = userId) :
    ((ord.status = .pending ∨ ord.status = .processing) →
      (cancelOrder db userId role oid).1 = .ok { ord with status := .cancelled } ∧
      singleOrder (cancelOrder db userId role oid).2 oid
        = some { ord with status := .cancelled } ∧
      (cancelOrder db userId role oid).2.products
        = db.products.map (fun p =>
            { p with stock := p.stock
                + qtyAdjP (fun j => j.quantity) (orderStockItems db oid) p.product_id }) ∧
      (cancelOrder db userId role oid).2.product_sizes
        = db.product_sizes.map (fun s =>
            { s with stock := (s.stock
                + qtyAdjS (fun j => j.quantity) (orderStockItems db oid)
                    s.product_id s.size) })) ∧
    (ord.status ≠ .pending → ord.status ≠ .processing →
      cancelOrder db userId role oid
        = (.error (.InvalidTransition ord.status .cancelled), db) ∧
      (OrderError.InvalidTransition ord.status .cancelled).httpStatus = 400) := by
  have hauth : (role != "admin" && ord.user_id != userId) = false := by
    simp [hown]
  constructor
  · intro hst
    have hst' : (ord.status != OrderStatus.pending
        && ord.status != OrderStatus.processing) = false := by
      rcases hst with h1 | h1 <;> simp [h1]
    have hc := cancelOrder_success_eq db userId role oid ord h hauth hst'
    rw [hc]
    refine ⟨rfl, ?_, ?_, ?_⟩
    · have horders : (releaseStocks (setOrderStatus db oid .cancelled)
          (orderStockItems db oid)).orders = (setOrderStatus db oid .cancelled).orders :=
        releaseStocks_orders _ _
      show singleMatch _ (releaseStocks (setOrderStatus db oid .cancelled)
        (orderStockItems db oid)).orders = _
      rw [horders]
      exact singleOrder_setOrderStatus db oid ord .cancelled h
    · exact releaseStocks_products _ _
    · exact releaseStocks_product_sizes _ _
  · intro h1 h2
    have hst' : (ord.status != OrderStatus.pending
        && ord.status != OrderStatus.processing) = true := by
      simp [h1, h2]
    have hfst : cancelOrder db userId role oid
        = (.error (.InvalidTransition ord.status .cancelled), db) := by
      unfold cancelOrder
      rw [h]
      simp only [hauth, Bool.false_eq_true, if_false, hst', if_true]
    exact ⟨hfst, rfl⟩

/-- Witness for C7: user 7 cancels their own pending order 1; both branches
of the theorem are instantiated, the succeeding one applying. -/
theorem cancelOrder_owner_rules_witness :
    singleOrder wDB 1 = some wOrder ∧ wOrder.user_id = 7 ∧
    (((wOrder.status = .pending ∨ wOrder.status = .processing) →
      (cancelOrder wDB 7 "user" 1).1 = .ok { wOrder with status := .cancelled } ∧
      singleOrder (cancelOrder wDB 7 "user" 1).2 1
        = some { wOrder with status := .cancelled } ∧
      (cancelOrder wDB 7 "user" 1).2.products
        = wDB.products.map (fun p =>
            { p with stock := p.stock
                + qtyAdjP (fun j => j.quantity) (orderStockItems wDB 1) p.product_id }) ∧
      (cancelOrder wDB 7 "user" 1).2.product_sizes
        = wDB.product_sizes.map (fun s =>
            { s with stock := (s.stock
                + qtyAdjS (fun j => j.quantity) (orderStockItems wDB 1)
                    s.product_id s.size) })) ∧
    (wOrder.status ≠ .pending → wOrder.status ≠ .processing →
      cancelOrder wDB 7 "user" 1
        = (.error (.InvalidTransition wOrder.status .cancelled), wDB) ∧
      (OrderError.InvalidTransition wOrder.status .cancelled).httpStatus = 400)) :=
  ⟨by decide, by decide,
    cancelOrder_owner_rules wDB 7 "user" 1 wOrder (by decide) (by decide)⟩

/-- C4: a successful `createOrder` persists a total equal to the sum of
(current catalog price × requested quantity) over the line items, captures the
current catalog price on every persisted order item, and is entirely
insensitive to the client-supplied price field of the request items. -/
theorem createOrder_total_from_catalog_prices (db : DB) (userId : Nat)
    (items : List ReqItem) (oid : Nat) (total : Int) (db' : DB)
    (hfresh : ∀ oi ∈ db.order_items, oi.order_id ≠ db.next_order_id)
    (h : createOrder db userId items = (.ok (oid, total), db')) :
    total = (items.map (fun it => currentPrice db it.product_id * it.quantity)).sum ∧
    (∃ ord ∈ db'.orders, ord.order_id = oid ∧ ord.total_price = total ∧
      ord.status = .pending) ∧
    (∀ oi ∈ db'.order_items, oi.order_id = oid →
      oi.price = currentPrice db oi.product_id) ∧
    (∀ items2 : List ReqItem, items2.map ReqItem.toKey = items.map ReqItem.toKey →
      createOrder db userId items2 = (.ok (oid, total), db')) := by
  obtain ⟨hval, hoid, vs, hver, hdb⟩ := createOrder_ok_inv db userId items oid total db' h
  obtain ⟨htot, hkeys, hitems⟩ := verifyItems_ok_spec db items vs total hver
  refine ⟨htot, ?_, ?_, ?_⟩
  · refine ⟨⟨db.next_order_id, userId, total, .pending⟩, ?_, hoid.symm, rfl, rfl⟩
    rw [hdb, reserveStocks_orders]
    simp
  · intro oi hmem hid
    rw [hdb, reserveStocks_order_items] at hmem
    simp only [List.mem_append] at hmem
    rcases hmem with hold | hnew
    · exact absurd (hid.trans hoid) (hfresh oi hold)
    · obtain ⟨v, hv, rfl⟩ := List.mem_map.mp hnew
      exact (hitems v hv).1
  · intro items2 hk
    rw [createOrder_congr db userId items items2 hk]
    exact h

/-- Request items for the C4 witness: quantity 2 of product 1 with a bogus
client-supplied price of 999, which must not influence the order. -/
def wItems : List ReqItem := [{ product_id := 1, size := none, quantity := 2, price := some 999 }]

/-- The state after the C4 witness order. -/
def wDB4 : DB := (createOrder wDB 7 wItems).2

/-- Witness for C4: the order totals 2 × 50 = 100 from the catalog price,
ignoring the client's 999. -/
theorem createOrder_total_from_catalog_prices_witness :
    (∀ oi ∈ wDB.order_items, oi.order_id ≠ wDB.next_order_id) ∧
    createOrder wDB 7 wItems = (.ok (2, 100), wDB4) ∧
    ((100 : Int) = (wItems.map (fun it => currentPrice wDB it.product_id * it.quantity)).sum ∧
    (∃ ord ∈ wDB4.orders, ord.order_id = 2 ∧ ord.total_price = 100 ∧
      ord.status = .pending) ∧
    (∀ oi ∈ wDB4.order_items, oi.order_id = 2 →
      oi.price = currentPrice wDB oi.product_id) ∧
    (∀ items2 : List ReqItem, items2.map ReqItem.toKey = wItems.map ReqItem.toKey →
      createOrder wDB 7 items2 = (.ok (2, 100), wDB4))) :=
  ⟨by decide, rfl,
    createOrder_total_from_catalog_prices wDB 7 wItems 2 100 wDB4 (by decide) rfl⟩

/-- State for the C5 counterexample: one product with stock 5. -/
def c5DB : DB :=
  { products := [{ product_id := 1, name := "Kaos", price := 50, stock := 5 }],
    product_sizes := [], orders := [], order_items := [], cart_items := [],
    next_order_id := 1, next_item_id := 1 }

/-- Counterexample to C5 as stated: from a state where all stock counts are
non-negative (product 1 has stock 5), a single sequential `createOrder` whose
two line items both request 3 units of product 1 passes both availability
checks (each reads stock 5) and then decrements twice, leaving stock −1 — an
operation of the system breaks the non-negativity invariant with no
concurrency involved. -/
theorem createOrder_duplicate_rows_oversell :
    goodDB c5DB ∧
    (createOrder c5DB 7 [⟨1, none, 3, none⟩, ⟨1, none, 3, none⟩]).1 = .ok (1, 300) ∧
    ¬(∀ p ∈ (createOrder c5DB 7 [⟨1, none, 3, none⟩, ⟨1, none, 3, none⟩]).2.products,
        0 ≤ p.stock) :=
  ⟨⟨by decide, by decide, by decide⟩, rfl, by decide⟩

/-- C5 amended: in every sequential execution starting from a state where
all stock counts and all persisted order-item quantities are non-negative,
each operation (`createOrder`, `cancelOrder`, `updateOrderStatus`, and the
cart handlers) preserves that invariant — provided no `createOrder` request
names the same stock row in two line items, the proviso the counterexample
forces. -/
theorem ops_preserve_nonneg_stocks (db : DB) (op : Op)
    (hg : goodDB db) (hd : distinctRows op) :
    goodDB (applyOp db op) := by
  cases op with
  | create u items => exact create_preserves_goodDB db u items hg hd
  | cancel u r oid => exact cancel_preserves_goodDB db u r oid hg
  | updStatus oid st =>
    obtain ⟨hgp, hgs, hgi⟩ := hg
    obtain ⟨h1, h2⟩ := updateOrderStatus_stocks_unchanged db oid st
    have h3 := updateOrderStatus_order_items db oid st
    simp only [applyOp, goodDB, h1, h2, h3]
    exact ⟨hgp, hgs, hgi⟩
  | cartAdd u pid q sz =>
    obtain ⟨hgp, hgs, hgi⟩ := hg
    obtain ⟨a1, a2, a3⟩ := addToCart_stock_fields db u pid q sz
    simp only [applyOp, goodDB, a1, a2, a3]
    exact ⟨hgp, hgs, hgi⟩
  | cartUpdate u itemId q =>
    obtain ⟨hgp, hgs, hgi⟩ := hg
    obtain ⟨a1, a2, a3⟩ := updateCartItem_stock_fields db u itemId q
    simp only [applyOp, goodDB, a1, a2, a3]
    exact ⟨hgp, hgs, hgi⟩
  | cartRemove u itemId =>
    obtain ⟨hgp, hgs, hgi⟩ := hg
    obtain ⟨a1, a2, a3⟩ := removeFromCart_stock_fields db u itemId
    simp only [applyOp, goodDB, a1, a2, a3]
    exact ⟨hgp, hgs, hgi⟩
  | cartClear u =>
    obtain ⟨hgp, hgs, hgi⟩ := hg
    simp only [applyOp, goodDB]
    exact ⟨hgp, hgs, hgi⟩

/-- Witness for the amended C5: the order of the C4 witness, run from `wDB`,
keeps every stock count and order-item quantity non-negative. -/
theorem ops_preserve_nonneg_stocks_witness :
    goodDB wDB ∧ distinctRows (.create 7 wItems) ∧
    goodDB (applyOp wDB (.create 7 wItems)) :=
  ⟨⟨by decide, by decide, by decide⟩,
    by show (wItems.map (fun it => (it.product_id, it.size))).Nodup; decide,
    ops_preserve_nonneg_stocks wDB (.create 7 wItems)
      ⟨by decide, by decide, by decide⟩
      (by show (wItems.map (fun it => (it.product_id, it.size))).Nodup; decide)⟩

end NgeBaju
